import Mathlib

/-!
Verification of the schema migration in
`src/data/migrations/20200727145911_create-tables.js`.

The migration is a knex schema-builder script.  We embed it shallowly:
the chain of builder calls that the JavaScript file performs is
transcribed as data (`upOps`, `downOps`), and the meaning knex gives
those calls is captured by `compileTable` (which turns a list of builder
calls into a table schema) and by an executable semantics over database
states (`runOps` for DDL, `insertRow` / `deleteRows` for DML respecting
the compiled constraints).

Modelling note on foreign keys, taken from knex's builder design: the
`onDelete` / `onUpdate` methods belong to the foreign-key chain that a
`references(...)` call opens on a column; a column chain that never
calls `references` has no foreign-key chain, so `onDelete`/`onUpdate`
calls on it attach to no foreign key, and a foreign key added with
`table.foreign(col).references(...)` carries the database default
actions (RESTRICT, as the migration's own comments state: "RESTRICT -
this is the default if you don't call .onDelete() or .onUpdate()").
-/

namespace ZooMigration

/-- A cell value in a row: SQL integer, string, or NULL. -/
inductive Value
  | vint (n : Int)
  | vstr (s : String)
  | vnull
deriving DecidableEq, Repr

/-- A row is an association of column names to values. -/
abbrev Row := List (String × Value)

/-- Value of column `c` in row `r`; absent columns read as NULL. -/
def getVal (r : Row) (c : String) : Value :=
  match r.find? (fun p => p.fst == c) with
  | some p => p.snd
  | none => Value.vnull

/-- Column types used by the migration: `increments` ids are integers. -/
inductive ColType
  | integer
  | str (limit : Nat)
deriving DecidableEq, Repr

/-- Referential actions for foreign keys.  `restrict` is the default
when no `onDelete`/`onUpdate` is attached (per the migration's own
comments and SQL's default of rejecting the parent delete/update). -/
inductive FKAction
  | restrict
  | cascade
  | setNull
  | noAction
deriving DecidableEq, Repr

/-- Parse the string arguments the migration passes to
`.onDelete(...)` / `.onUpdate(...)`. -/
def parseAction (s : String) : FKAction :=
  if s == "CASCADE" then FKAction.cascade
  else if s == "SET NULL" then FKAction.setNull
  else if s == "NO ACTION" then FKAction.noAction
  else FKAction.restrict

/-- One chained call on a knex column builder, in source order. -/
inductive ColMod
  | unsigned
  | notNullable
  | unique
  | references (spec : String)
  | inTable (t : String)
  | onDelete (a : String)
  | onUpdate (a : String)
deriving DecidableEq, Repr

/-- One call on the knex table builder inside a `createTable` callback. -/
inductive TableCmd
  | increments
  | column (name : String) (ty : ColType) (mods : List ColMod)
  | foreign (col : String) (spec : String)
  | primary (cols : List String)
deriving DecidableEq, Repr

/-- One chained call on `knex.schema`. -/
inductive SchemaOp
  | createTable (name : String) (cmds : List TableCmd)
  | dropTableIfExists (name : String)
deriving DecidableEq, Repr

/-- Split a character list at every occurrence of `sep`. -/
def splitChars (sep : Char) : List Char → List (List Char)
  | [] => [[]]
  | c :: cs =>
    let r := splitChars sep cs
    if c == sep then [] :: r
    else
      match r with
      | h :: t => (c :: h) :: t
      | [] => [[c]]

/-- Split a `"table.column"` reference spec at its dot, as knex does
with `split('.')`; a spec without exactly one dot names no table. -/
def splitDot (s : String) : Option (String × String) :=
  match (splitChars '.' s.toList).map (fun l => String.mk l) with
  | [t, c] => some (t, c)
  | _ => none

/-- Compiled form of one column definition. -/
structure ColumnSchema where
  name : String
  ctype : ColType
  notNull : Bool
  unique : Bool
  unsigned : Bool
deriving DecidableEq, Repr

/-- Compiled form of one foreign-key constraint. -/
structure ForeignKey where
  column : String
  refTable : String
  refColumn : String
  onDel : FKAction
  onUpd : FKAction
deriving DecidableEq, Repr

/-- Compiled form of one table. -/
structure TableSchema where
  columns : List ColumnSchema
  primaryKey : List String
  foreignKeys : List ForeignKey
deriving DecidableEq, Repr

/-- Accumulator while interpreting one column-builder chain. -/
structure ChainState where
  unsigned : Bool
  notNull : Bool
  unique : Bool
  hasRef : Bool
  refTable : Option String
  refColumn : Option String
  onDel : FKAction
  onUpd : FKAction
deriving DecidableEq, Repr

def ChainState.init : ChainState :=
  ⟨false, false, false, false, none, none, FKAction.restrict, FKAction.restrict⟩

/-- Interpret one chained column-builder call.  `inTable`, `onDelete`
and `onUpdate` are methods of the foreign-key chain opened by
`references`; without a preceding `references` in the same chain they
attach to nothing. -/
def applyMod (st : ChainState) : ColMod → ChainState
  | ColMod.unsigned => { st with unsigned := true }
  | ColMod.notNullable => { st with notNull := true }
  | ColMod.unique => { st with unique := true }
  | ColMod.references spec =>
    match splitDot spec with
    | some (t, c) => { st with hasRef := true, refTable := some t, refColumn := some c }
    | none => { st with hasRef := true, refColumn := some spec }
  | ColMod.inTable t => if st.hasRef then { st with refTable := some t } else st
  | ColMod.onDelete a => if st.hasRef then { st with onDel := parseAction a } else st
  | ColMod.onUpdate a => if st.hasRef then { st with onUpd := parseAction a } else st

/-- Interpret one table-builder call, extending the compiled schema. -/
def applyCmd (s : TableSchema) : TableCmd → TableSchema
  | TableCmd.increments =>
    { s with
      columns := s.columns ++ [⟨"id", ColType.integer, true, true, true⟩],
      primaryKey := if s.primaryKey.isEmpty then ["id"] else s.primaryKey }
  | TableCmd.column n ty mods =>
    let st := mods.foldl applyMod ChainState.init
    let cols := s.columns ++ [⟨n, ty, st.notNull, st.unique, st.unsigned⟩]
    match st.hasRef, st.refTable, st.refColumn with
    | true, some t, some c =>
      { s with columns := cols,
               foreignKeys := s.foreignKeys ++ [⟨n, t, c, st.onDel, st.onUpd⟩] }
    | _, _, _ => { s with columns := cols }
  | TableCmd.foreign col spec =>
    match splitDot spec with
    | some (t, c) =>
      { s with foreignKeys :=
          s.foreignKeys ++ [⟨col, t, c, FKAction.restrict, FKAction.restrict⟩] }
    | none => s
  | TableCmd.primary cols => { s with primaryKey := cols }

def compileTable (cmds : List TableCmd) : TableSchema :=
  cmds.foldl applyCmd ⟨[], [], []⟩

/-- `createTable("zoos", ...)` callback, transcribed call by call. -/
def zoosCmds : List TableCmd :=
  [ TableCmd.increments,
    TableCmd.column "zoo_name" (ColType.str 255) [ColMod.notNullable],
    TableCmd.column "address" (ColType.str 255) [ColMod.notNullable, ColMod.unique] ]

/-- `createTable("species", ...)` callback. -/
def speciesCmds : List TableCmd :=
  [ TableCmd.increments,
    TableCmd.column "species_name" (ColType.str 255) [ColMod.notNullable, ColMod.unique] ]

/-- `createTable("animals", ...)` callback. -/
def animalsCmds : List TableCmd :=
  [ TableCmd.increments,
    TableCmd.column "animal_name" (ColType.str 255) [ColMod.notNullable],
    TableCmd.column "species_id" ColType.integer
      [ ColMod.unsigned, ColMod.notNullable, ColMod.references "species.id",
        ColMod.onDelete "CASCADE", ColMod.onUpdate "CASCADE" ] ]

/-- `createTable("zoo_animals", ...)` callback.  Note the `animal_id`
chain calls `onDelete`/`onUpdate` without any `references`, and the
foreign key is added afterwards by `tbl.foreign(...)`. -/
def zooAnimalsCmds : List TableCmd :=
  [ TableCmd.column "zoo_id" ColType.integer
      [ ColMod.unsigned, ColMod.notNullable, ColMod.references "id", ColMod.inTable "zoos",
        ColMod.onDelete "CASCADE", ColMod.onUpdate "CASCADE" ],
    TableCmd.column "animal_id" ColType.integer
      [ ColMod.unsigned, ColMod.notNullable,
        ColMod.onDelete "CASCADE", ColMod.onUpdate "CASCADE" ],
    TableCmd.foreign "animal_id" "animals.id",
    TableCmd.primary ["zoo_id", "animal_id"] ]

/-- `exports.up`: the chained `knex.schema.createTable(...)` calls, in
source order. -/
def upOps : List SchemaOp :=
  [ SchemaOp.createTable "zoos" zoosCmds,
    SchemaOp.createTable "species" speciesCmds,
    SchemaOp.createTable "animals" animalsCmds,
    SchemaOp.createTable "zoo_animals" zooAnimalsCmds ]

/-- `exports.down`: the chained `dropTableIfExists` calls, in source
order. -/
def downOps : List SchemaOp :=
  [ SchemaOp.dropTableIfExists "zoo_animals",
    SchemaOp.dropTableIfExists "animals",
    SchemaOp.dropTableIfExists "species",
    SchemaOp.dropTableIfExists "zoos" ]

/-- A table instance in a running database: its name, its schema and
its rows. -/
structure Table where
  name : String
  schema : TableSchema
  rows : List Row
deriving DecidableEq, Repr

/-- A database state: the list of existing tables. -/
abbrev DbState := List Table

def tableExists (db : DbState) (n : String) : Bool :=
  db.any (fun t => t.name == n)

def lookupTable (db : DbState) (n : String) : Option Table :=
  db.find? (fun t => t.name == n)

def setRows (db : DbState) (n : String) (rs : List Row) : DbState :=
  db.map (fun t => if t.name == n then { t with rows := rs } else t)

/-- Execute one schema operation.  `createTable` fails when the table
already exists; `dropTableIfExists` never fails. -/
def runOp (db : DbState) : SchemaOp → Except String DbState
  | SchemaOp.createTable n cmds =>
    if tableExists db n then Except.error ("AlreadyExists: " ++ n)
    else Except.ok (db ++ [⟨n, compileTable cmds, []⟩])
  | SchemaOp.dropTableIfExists n =>
    Except.ok (db.filter (fun t => t.name != n))

/-- Execute a chain of schema operations left to right, stopping at the
first failure (knex runs the chained statements strictly sequentially). -/
def runOps : List SchemaOp → DbState → Except String DbState
  | [], db => Except.ok db
  | op :: rest, db =>
    match runOp db op with
    | Except.ok db' => runOps rest db'
    | Except.error e => Except.error e

/-- The compiled schemas of the four tables. -/
def zoosSchema : TableSchema := compileTable zoosCmds

def speciesSchema : TableSchema := compileTable speciesCmds

def animalsSchema : TableSchema := compileTable animalsCmds

def zooAnimalsSchema : TableSchema := compileTable zooAnimalsCmds

/-- The database state consisting of exactly the four migrated tables,
with the given rows. -/
def mkState (zr sr ar zar : List Row) : DbState :=
  [ ⟨"zoos", zoosSchema, zr⟩,
    ⟨"species", speciesSchema, sr⟩,
    ⟨"animals", animalsSchema, ar⟩,
    ⟨"zoo_animals", zooAnimalsSchema, zar⟩ ]

def tableNames : List String := ["zoos", "species", "animals", "zoo_animals"]

/-- A non-null foreign-key value must match the referenced column of
some row of the referenced table. -/
def fkSatisfied (db : DbState) (fk : ForeignKey) (v : Value) : Bool :=
  match v with
  | Value.vnull => true
  | v =>
    match lookupTable db fk.refTable with
    | none => false
    | some p => p.rows.any (fun pr => getVal pr fk.refColumn == v)

/-- Every NOT NULL column of the schema has a non-null value in `r`. -/
def notNullOk (sch : TableSchema) (r : Row) : Bool :=
  sch.columns.all (fun c => !c.notNull || getVal r c.name != Value.vnull)

/-- No UNIQUE column of the schema repeats, between `r` and the
existing `rows`, a value. -/
def uniqueOk (sch : TableSchema) (rows : List Row) (r : Row) : Bool :=
  sch.columns.all
    (fun c => !c.unique || rows.all (fun ex => getVal ex c.name != getVal r c.name))

/-- Some existing row already carries `r`'s values on every primary-key
column (for a table that has a primary key). -/
def pkViolated (sch : TableSchema) (rows : List Row) (r : Row) : Bool :=
  !sch.primaryKey.isEmpty
    && rows.any (fun ex => sch.primaryKey.all (fun pk => getVal ex pk == getVal r pk))

/-- Every foreign key of the schema is satisfied by `r`'s values. -/
def fksOk (db : DbState) (sch : TableSchema) (r : Row) : Bool :=
  sch.foreignKeys.all (fun fk => fkSatisfied db fk (getVal r fk.column))

/-- Insert a row, enforcing in order: NOT NULL, per-column UNIQUE,
primary key, and foreign keys — the constraints compiled from the
migration. -/
def insertRow (db : DbState) (tname : String) (r : Row) : Except String DbState :=
  match lookupTable db tname with
  | none => Except.error ("no such table: " ++ tname)
  | some t =>
    if !notNullOk t.schema r then
      Except.error ("not-null violation: " ++ tname)
    else if !uniqueOk t.schema t.rows r then
      Except.error ("unique violation: " ++ tname)
    else if pkViolated t.schema t.rows r then
      Except.error ("primary key violation: " ++ tname)
    else if !fksOk db t.schema r then
      Except.error ("foreign key violation: " ++ tname)
    else
      Except.ok (setRows db tname (t.rows ++ [r]))

/-- All foreign keys in the database that reference table `tname`,
paired with the name of the table holding them. -/
def refPairs (db : DbState) (tname : String) : List (String × ForeignKey) :=
  db.foldr
    (fun u acc =>
      (u.schema.foreignKeys.filter (fun fk => fk.refTable == tname)).map
        (fun fk => (u.name, fk)) ++ acc)
    []

/-- After rows `deleted` were removed from table `tname`, apply the
on-delete action of every foreign key referencing `tname`: a `cascade`
key yields a follow-up deletion of the referencing rows, any other
action rejects the whole delete while referencing rows remain in `db`. -/
def cascadeItems (db : DbState) (tname : String) (deleted : List Row) :
    Except String (List (String × (Row → Bool))) :=
  (refPairs db tname).foldr
    (fun p acc =>
      match acc with
      | Except.error e => Except.error e
      | Except.ok items =>
        let fk := p.snd
        let refVals := deleted.map (fun d => getVal d fk.refColumn)
        let hit := fun (r : Row) => refVals.contains (getVal r fk.column)
        match lookupTable db p.fst with
        | none => Except.ok items
        | some u =>
          if (u.rows.filter hit).isEmpty then Except.ok items
          else
            match fk.onDel with
            | FKAction.cascade => Except.ok ((p.fst, hit) :: items)
            | _ => Except.error ("foreign key restrict: " ++ p.fst ++ "." ++ fk.column))
    (Except.ok [])

/-- Process a work list of pending deletions `(table, predicate)`:
delete the matching rows, then enqueue the cascaded deletions (or fail
on a restricting foreign key).  `fuel` bounds the cascade length; the
foreign-key graph of the migration is acyclic, so enough fuel makes the
bound irrelevant. -/
def deleteWork : Nat → DbState → List (String × (Row → Bool)) → Except String DbState
  | _, db, [] => Except.ok db
  | 0, _, _ :: _ => Except.error "cascade depth exceeded"
  | Nat.succ f, db, (tname, pred) :: work =>
    match lookupTable db tname with
    | none => Except.error ("no such table: " ++ tname)
    | some t =>
      let deleted := t.rows.filter pred
      let db' := setRows db tname (t.rows.filter (fun r => !pred r))
      match cascadeItems db' tname deleted with
      | Except.ok items => deleteWork f db' (work ++ items)
      | Except.error e => Except.error e

/-- Delete from `tname` every row satisfying `pred`, cascading per the
compiled foreign keys, with ample fuel for this migration's schemas. -/
def deleteRows (db : DbState) (tname : String) (pred : Row → Bool) :
    Except String DbState :=
  deleteWork ((db.length + 1) * (db.length + 1)) db [(tname, pred)]

/-- Names of the tables a list of schema operations creates, in order. -/
def createdNames (ops : List SchemaOp) : List String :=
  ops.filterMap
    (fun op =>
      match op with
      | SchemaOp.createTable n _ => some n
      | SchemaOp.dropTableIfExists _ => none)

/-- Does every `createTable` in the list only reference tables created
by earlier entries (given tables `created` already exist)? -/
def refsRespectOrder : List SchemaOp → List String → Bool
  | [], _ => true
  | SchemaOp.createTable n cmds :: rest, created =>
    (compileTable cmds).foreignKeys.all (fun fk => created.contains fk.refTable)
      && refsRespectOrder rest (created ++ [n])
  | SchemaOp.dropTableIfExists _ :: rest, created => refsRespectOrder rest created

/-- The database reached by `apply` and the sample inserts of the
spec's scenario: one zoo, one species (Lion), one animal (Leo) of that
species, and one `zoo_animals` residency row linking them. -/
def populatedDb : DbState :=
  mkState
    [[("id", Value.vint 1), ("zoo_name", Value.vstr "Metro Zoo"),
      ("address", Value.vstr "1 Zoo Way, Springfield")]]
    [[("id", Value.vint 1), ("species_name", Value.vstr "Lion")]]
    [[("id", Value.vint 1), ("animal_name", Value.vstr "Leo"),
      ("species_id", Value.vint 1)]]
    [[("zoo_id", Value.vint 1), ("animal_id", Value.vint 1)]]

/-- Explicit value of the compiled `zoos` schema. -/
theorem zoosSchema_eq :
    zoosSchema =
      ⟨[⟨"id", ColType.integer, true, true, true⟩,
        ⟨"zoo_name", ColType.str 255, true, false, false⟩,
        ⟨"address", ColType.str 255, true, true, false⟩],
       ["id"], []⟩ := rfl

/-- Explicit value of the compiled `species` schema. -/
theorem speciesSchema_eq :
    speciesSchema =
      ⟨[⟨"id", ColType.integer, true, true, true⟩,
        ⟨"species_name", ColType.str 255, true, true, false⟩],
       ["id"], []⟩ := rfl

/-- Explicit value of the compiled `animals` schema: `species_id` is an
unsigned non-nullable foreign key to `species.id` with CASCADE actions. -/
theorem animalsSchema_eq :
    animalsSchema =
      ⟨[⟨"id", ColType.integer, true, true, true⟩,
        ⟨"animal_name", ColType.str 255, true, false, false⟩,
        ⟨"species_id", ColType.integer, true, false, true⟩],
       ["id"],
       [⟨"species_id", "species", "id", FKAction.cascade, FKAction.cascade⟩]⟩ := rfl

/-- Explicit value of the compiled `zoo_animals` schema: the `zoo_id`
key carries CASCADE actions, but the `animal_id` key — added by
`tbl.foreign(...)` after a column chain whose `onDelete`/`onUpdate`
calls precede any `references` — carries the RESTRICT defaults. -/
theorem zooAnimalsSchema_eq :
    zooAnimalsSchema =
      ⟨[⟨"zoo_id", ColType.integer, true, false, true⟩,
        ⟨"animal_id", ColType.integer, true, false, true⟩],
       ["zoo_id", "animal_id"],
       [⟨"zoo_id", "zoos", "id", FKAction.cascade, FKAction.cascade⟩,
        ⟨"animal_id", "animals", "id", FKAction.restrict, FKAction.restrict⟩]⟩ := rfl

/-- C1: the claim that every foreign-key column carries ON DELETE / ON
UPDATE CASCADE fails on the code.  `animals.species_id` and
`zoo_animals.zoo_id` do cascade, but the `zoo_animals.animal_id`
foreign key is attached by `tbl.foreign("animal_id")` with no cascade
actions (the `.onDelete("CASCADE").onUpdate("CASCADE")` calls on that
column chain precede any `references` and so attach to no foreign
key), leaving it with the RESTRICT default.  Consequently, in the
populated scenario state, deleting the species row is rejected by the
restricting key instead of cascading through `animals` to
`zoo_animals`. -/
theorem animal_id_fk_lacks_cascade :
    animalsSchema.foreignKeys =
      [⟨"species_id", "species", "id", FKAction.cascade, FKAction.cascade⟩]
    ∧ zooAnimalsSchema.foreignKeys =
      [⟨"zoo_id", "zoos", "id", FKAction.cascade, FKAction.cascade⟩,
       ⟨"animal_id", "animals", "id", FKAction.restrict, FKAction.restrict⟩]
    ∧ deleteRows populatedDb "species" (fun r => getVal r "id" == Value.vint 1)
        = Except.error "foreign key restrict: zoo_animals.animal_id" :=
  ⟨rfl, rfl, rfl⟩

/-- C4: `apply` creates the tables in the source order `zoos`,
`species`, `animals`, `zoo_animals`, and every `createTable` statement
only references tables created by earlier statements. -/
theorem up_creation_order :
    createdNames upOps = ["zoos", "species", "animals", "zoo_animals"]
    ∧ refsRespectOrder upOps [] = true :=
  ⟨rfl, rfl⟩

/-- C5: `revert` drops the tables in the exact reverse of the creation
order of `apply`. -/
theorem down_reverse_order :
    downOps = (createdNames upOps).reverse.map SchemaOp.dropTableIfExists :=
  rfl

/-- The state left by `revert`: the four drops, applied in order. -/
def dropAll (s : DbState) : DbState :=
  (((s.filter (fun t => t.name != "zoo_animals")).filter
      (fun t => t.name != "animals")).filter
      (fun t => t.name != "species")).filter (fun t => t.name != "zoos")

theorem down_eval (s : DbState) : runOps downOps s = Except.ok (dropAll s) := rfl

theorem tableExists_append (a b : DbState) (n : String) :
    tableExists (a ++ b) n = (tableExists a n || tableExists b n) := by
  simp [tableExists]

theorem name_ne_of_not_exists {s : DbState} {n : String}
    (h : tableExists s n = false) : ∀ t ∈ s, (t.name != n) = true := by
  intro t ht
  have h2 : ∀ x ∈ s, ¬x.name = n := by simpa [tableExists] using h
  simpa using h2 t ht

theorem runOp_create_not_exists {db : DbState} {n : String} {cmds : List TableCmd}
    (h : tableExists db n = false) :
    runOp db (SchemaOp.createTable n cmds)
      = Except.ok (db ++ [⟨n, compileTable cmds, []⟩]) := by
  simp [runOp, h]

theorem runOp_create_exists {db : DbState} {n : String} {cmds : List TableCmd}
    (h : tableExists db n = true) :
    runOp db (SchemaOp.createTable n cmds) = Except.error ("AlreadyExists: " ++ n) := by
  simp [runOp, h]

theorem runOps_cons_ok {db db' : DbState} {op : SchemaOp} {ops : List SchemaOp}
    (h : runOp db op = Except.ok db') :
    runOps (op :: ops) db = runOps ops db' := by
  simp [runOps, h]

theorem runOps_cons_err {db : DbState} {op : SchemaOp} {ops : List SchemaOp} {e : String}
    (h : runOp db op = Except.error e) :
    runOps (op :: ops) db = Except.error e := by
  simp [runOps, h]

/-- When none of the four tables exists, `apply` appends exactly the
four freshly compiled, empty tables. -/
theorem up_of_absent (s : DbState) (h : ∀ n ∈ tableNames, tableExists s n = false) :
    runOps upOps s = Except.ok (s ++ mkState [] [] [] []) := by
  have hz : tableExists s "zoos" = false := h "zoos" (by simp [tableNames])
  have hs : tableExists s "species" = false := h "species" (by simp [tableNames])
  have ha : tableExists s "animals" = false := h "animals" (by simp [tableNames])
  have hza : tableExists s "zoo_animals" = false := h "zoo_animals" (by simp [tableNames])
  unfold upOps
  rw [runOps_cons_ok (runOp_create_not_exists hz),
    runOps_cons_ok (runOp_create_not_exists (by rw [tableExists_append, hs]; rfl)),
    runOps_cons_ok (runOp_create_not_exists
      (by rw [tableExists_append, tableExists_append, ha]; rfl)),
    runOps_cons_ok (runOp_create_not_exists
      (by rw [tableExists_append, tableExists_append, tableExists_append, hza]; rfl))]
  simp [runOps, mkState, zoosSchema, speciesSchema, animalsSchema, zooAnimalsSchema]

/-- C3: starting from any state in which none of the four tables
exists, `apply` succeeds, and `revert` immediately afterwards returns
the database to exactly its pre-`apply` state. -/
theorem apply_then_revert_roundtrip (s : DbState)
    (h : ∀ n ∈ tableNames, tableExists s n = false) :
    runOps upOps s = Except.ok (s ++ mkState [] [] [] [])
    ∧ runOps downOps (s ++ mkState [] [] [] []) = Except.ok s := by
  refine ⟨up_of_absent s h, ?_⟩
  rw [down_eval]
  show Except.ok (dropAll (s ++ mkState [] [] [] [])) = Except.ok s
  simp only [dropAll, List.filter_append]
  rw [List.filter_eq_self.mpr (name_ne_of_not_exists (h "zoo_animals" (by simp [tableNames]))),
    List.filter_eq_self.mpr (name_ne_of_not_exists (h "animals" (by simp [tableNames]))),
    List.filter_eq_self.mpr (name_ne_of_not_exists (h "species" (by simp [tableNames]))),
    List.filter_eq_self.mpr (name_ne_of_not_exists (h "zoos" (by simp [tableNames])))]
  simp [mkState]

/-- Closed instance of the round trip, from the empty database. -/
theorem apply_then_revert_roundtrip_witness :
    runOps upOps [] = Except.ok ([] ++ mkState [] [] [] [])
    ∧ runOps downOps ([] ++ mkState [] [] [] []) = Except.ok [] :=
  apply_then_revert_roundtrip [] (by decide)

/-- C6: `revert` succeeds from every starting state (each drop is an
idempotent `dropTableIfExists`), and running it again after it has run
once leaves the state unchanged. -/
theorem revert_total_and_idempotent (s : DbState) :
    runOps downOps s = Except.ok (dropAll s)
    ∧ runOps downOps (dropAll s) = Except.ok (dropAll s) := by
  refine ⟨down_eval s, ?_⟩
  have key : ∀ t ∈ dropAll s,
      (t.name != "zoo_animals") = true ∧ (t.name != "animals") = true
      ∧ (t.name != "species") = true ∧ (t.name != "zoos") = true := by
    intro t ht
    simp only [dropAll, List.mem_filter] at ht
    exact ⟨ht.1.1.1.2, ht.1.1.2, ht.1.2, ht.2⟩
  have e1 : (dropAll s).filter (fun t => t.name != "zoo_animals") = dropAll s :=
    List.filter_eq_self.mpr (fun t ht => (key t ht).1)
  have e2 : (dropAll s).filter (fun t => t.name != "animals") = dropAll s :=
    List.filter_eq_self.mpr (fun t ht => (key t ht).2.1)
  have e3 : (dropAll s).filter (fun t => t.name != "species") = dropAll s :=
    List.filter_eq_self.mpr (fun t ht => (key t ht).2.2.1)
  have e4 : (dropAll s).filter (fun t => t.name != "zoos") = dropAll s :=
    List.filter_eq_self.mpr (fun t ht => (key t ht).2.2.2)
  rw [down_eval]
  show Except.ok
      (((((dropAll s).filter (fun t => t.name != "zoo_animals")).filter
          (fun t => t.name != "animals")).filter
          (fun t => t.name != "species")).filter (fun t => t.name != "zoos"))
    = Except.ok (dropAll s)
  rw [e1, e2, e3, e4]

/-- Closed instance of C6's statement at the freshly applied state. -/
theorem revert_total_and_idempotent_witness :
    runOps downOps (mkState [] [] [] []) = Except.ok (dropAll (mkState [] [] [] []))
    ∧ runOps downOps (dropAll (mkState [] [] [] []))
        = Except.ok (dropAll (mkState [] [] [] [])) :=
  revert_total_and_idempotent (mkState [] [] [] [])

/-- C7: `apply` fails with an AlreadyExists error whenever any of the
four tables already exists, whatever else the state holds. -/
theorem up_fails_when_table_exists (s : DbState)
    (h : ∃ n ∈ tableNames, tableExists s n = true) :
    ∃ n, runOps upOps s = Except.error ("AlreadyExists: " ++ n) := by
  obtain ⟨n, hmem, hex⟩ := h
  simp only [tableNames, List.mem_cons, List.not_mem_nil, or_false] at hmem
  rcases hmem with rfl | rfl | rfl | rfl
  · exact ⟨"zoos", by unfold upOps; rw [runOps_cons_err (runOp_create_exists hex)]⟩
  · by_cases hz : tableExists s "zoos" = true
    · exact ⟨"zoos", by unfold upOps; rw [runOps_cons_err (runOp_create_exists hz)]⟩
    · have hz' : tableExists s "zoos" = false := Bool.eq_false_iff.mpr hz
      refine ⟨"species", ?_⟩
      unfold upOps
      rw [runOps_cons_ok (runOp_create_not_exists hz'),
        runOps_cons_err (runOp_create_exists (by rw [tableExists_append, hex]; rfl))]
  · by_cases hz : tableExists s "zoos" = true
    · exact ⟨"zoos", by unfold upOps; rw [runOps_cons_err (runOp_create_exists hz)]⟩
    · have hz' : tableExists s "zoos" = false := Bool.eq_false_iff.mpr hz
      by_cases hs : tableExists s "species" = true
      · refine ⟨"species", ?_⟩
        unfold upOps
        rw [runOps_cons_ok (runOp_create_not_exists hz'),
          runOps_cons_err (runOp_create_exists (by rw [tableExists_append, hs]; rfl))]
      · have hs' : tableExists s "species" = false := Bool.eq_false_iff.mpr hs
        refine ⟨"animals", ?_⟩
        unfold upOps
        rw [runOps_cons_ok (runOp_create_not_exists hz'),
          runOps_cons_ok (runOp_create_not_exists (by rw [tableExists_append, hs']; rfl)),
          runOps_cons_err (runOp_create_exists
            (by rw [tableExists_append, tableExists_append, hex]; rfl))]
  · by_cases hz : tableExists s "zoos" = true
    · exact ⟨"zoos", by unfold upOps; rw [runOps_cons_err (runOp_create_exists hz)]⟩
    · have hz' : tableExists s "zoos" = false := Bool.eq_false_iff.mpr hz
      by_cases hs : tableExists s "species" = true
      · refine ⟨"species", ?_⟩
        unfold upOps
        rw [runOps_cons_ok (runOp_create_not_exists hz'),
          runOps_cons_err (runOp_create_exists (by rw [tableExists_append, hs]; rfl))]
      · have hs' : tableExists s "species" = false := Bool.eq_false_iff.mpr hs
        by_cases ha : tableExists s "animals" = true
        · refine ⟨"animals", ?_⟩
          unfold upOps
          rw [runOps_cons_ok (runOp_create_not_exists hz'),
            runOps_cons_ok (runOp_create_not_exists (by rw [tableExists_append, hs']; rfl)),
            runOps_cons_err (runOp_create_exists
              (by rw [tableExists_append, tableExists_append, ha]; rfl))]
        · have ha' : tableExists s "animals" = false := Bool.eq_false_iff.mpr ha
          refine ⟨"zoo_animals", ?_⟩
          unfold upOps
          rw [runOps_cons_ok (runOp_create_not_exists hz'),
            runOps_cons_ok (runOp_create_not_exists (by rw [tableExists_append, hs']; rfl)),
            runOps_cons_ok (runOp_create_not_exists
              (by rw [tableExists_append, tableExists_append, ha']; rfl)),
            runOps_cons_err (runOp_create_exists
              (by rw [tableExists_append, tableExists_append, tableExists_append, hex]; rfl))]

/-- Closed instance: `apply` on a state already holding an `animals`
table fails with AlreadyExists. -/
theorem up_fails_when_table_exists_witness :
    ∃ n, runOps upOps [⟨"animals", ⟨[], [], []⟩, []⟩]
      = Except.error ("AlreadyExists: " ++ n) :=
  up_fails_when_table_exists [⟨"animals", ⟨[], [], []⟩, []⟩] (by decide)

/-- Inversion: when `apply` succeeds, none of the four tables existed
before, and the result is the input state plus the four fresh tables. -/
theorem up_ok_inv (s s1 : DbState) (h1 : runOps upOps s = Except.ok s1) :
    (∀ n ∈ tableNames, tableExists s n = false) ∧ s1 = s ++ mkState [] [] [] [] := by
  by_cases hz : tableExists s "zoos" = true
  · exfalso
    unfold upOps at h1
    rw [runOps_cons_err (runOp_create_exists hz)] at h1
    exact Except.noConfusion h1
  have hz' : tableExists s "zoos" = false := Bool.eq_false_iff.mpr hz
  by_cases hs : tableExists s "species" = true
  · exfalso
    unfold upOps at h1
    rw [runOps_cons_ok (runOp_create_not_exists hz'),
      runOps_cons_err (runOp_create_exists (by rw [tableExists_append, hs]; rfl))] at h1
    exact Except.noConfusion h1
  have hs' : tableExists s "species" = false := Bool.eq_false_iff.mpr hs
  by_cases ha : tableExists s "animals" = true
  · exfalso
    unfold upOps at h1
    rw [runOps_cons_ok (runOp_create_not_exists hz'),
      runOps_cons_ok (runOp_create_not_exists (by rw [tableExists_append, hs']; rfl)),
      runOps_cons_err (runOp_create_exists
        (by rw [tableExists_append, tableExists_append, ha]; rfl))] at h1
    exact Except.noConfusion h1
  have ha' : tableExists s "animals" = false := Bool.eq_false_iff.mpr ha
  by_cases hza : tableExists s "zoo_animals" = true
  · exfalso
    unfold upOps at h1
    rw [runOps_cons_ok (runOp_create_not_exists hz'),
      runOps_cons_ok (runOp_create_not_exists (by rw [tableExists_append, hs']; rfl)),
      runOps_cons_ok (runOp_create_not_exists
        (by rw [tableExists_append, tableExists_append, ha']; rfl)),
      runOps_cons_err (runOp_create_exists
        (by rw [tableExists_append, tableExists_append, tableExists_append, hza]; rfl))] at h1
    exact Except.noConfusion h1
  have hza' : tableExists s "zoo_animals" = false := Bool.eq_false_iff.mpr hza
  have habs : ∀ n ∈ tableNames, tableExists s n = false := by
    intro n hn
    simp only [tableNames, List.mem_cons, List.not_mem_nil, or_false] at hn
    rcases hn with rfl | rfl | rfl | rfl
    · exact hz'
    · exact hs'
    · exact ha'
    · exact hza'
  refine ⟨habs, ?_⟩
  rw [up_of_absent s habs] at h1
  simpa using h1.symm

theorem lookupTable_append_other (s : DbState) (n : String) (hn : n ∉ tableNames) :
    lookupTable (s ++ mkState [] [] [] []) n = lookupTable s n := by
  simp only [tableNames, List.mem_cons, List.not_mem_nil, or_false, not_or] at hn
  obtain ⟨n1, n2, n3, n4⟩ := hn
  have e1 : ("zoos" == n) = false := beq_eq_false_iff_ne.mpr (Ne.symm n1)
  have e2 : ("species" == n) = false := beq_eq_false_iff_ne.mpr (Ne.symm n2)
  have e3 : ("animals" == n) = false := beq_eq_false_iff_ne.mpr (Ne.symm n3)
  have e4 : ("zoo_animals" == n) = false := beq_eq_false_iff_ne.mpr (Ne.symm n4)
  have hnone : (mkState [] [] [] []).find? (fun t => t.name == n) = none := by
    simp [mkState, List.find?, e1, e2, e3, e4]
  simp only [lookupTable]
  rw [List.find?_append, hnone, Option.or_none]

theorem lookupTable_dropAll_other (s : DbState) (n : String) (hn : n ∉ tableNames) :
    lookupTable (dropAll s) n = lookupTable s n := by
  simp only [tableNames, List.mem_cons, List.not_mem_nil, or_false, not_or] at hn
  obtain ⟨n1, n2, n3, n4⟩ := hn
  induction s with
  | nil => rfl
  | cons t rest ih =>
    by_cases hbad : t.name = "zoo_animals" ∨ t.name = "animals"
        ∨ t.name = "species" ∨ t.name = "zoos"
    · have hdrop : dropAll (t :: rest) = dropAll rest := by
        rcases hbad with h | h | h | h <;> simp [dropAll, List.filter_cons, h]
      have hne2 : t.name ≠ n := by
        rcases hbad with h | h | h | h <;> rw [h]
        · exact fun hh => n4 hh.symm
        · exact fun hh => n3 hh.symm
        · exact fun hh => n2 hh.symm
        · exact fun hh => n1 hh.symm
      rw [hdrop, ih]
      simp only [lookupTable, List.find?]
      cases hpt : t.name == n
      · rfl
      · exact absurd (by simpa using hpt) hne2
    · push_neg at hbad
      obtain ⟨b1, b2, b3, b4⟩ := hbad
      have hkeep : dropAll (t :: rest) = t :: dropAll rest := by
        simp [dropAll, List.filter_cons, b1, b2, b3, b4]
      rw [hkeep]
      simp only [lookupTable, List.find?]
      cases hpt : t.name == n
      · exact ih
      · rfl

/-- C10: the frame property of the migration.  When `apply` succeeds it
only appends the four tables (each created with zero rows) and leaves
every other table untouched; `revert` only removes tables among the
four and leaves every other table untouched. -/
theorem migration_frame (s s1 s2 : DbState)
    (h1 : runOps upOps s = Except.ok s1) (h2 : runOps downOps s = Except.ok s2) :
    s1 = s ++ mkState [] [] [] []
    ∧ (∀ t ∈ mkState [] [] [] [], t.rows = [])
    ∧ (∀ n, n ∉ tableNames → lookupTable s1 n = lookupTable s n)
    ∧ s2 = dropAll s
    ∧ (∀ n, n ∉ tableNames → lookupTable s2 n = lookupTable s n) := by
  obtain ⟨habs, hs1⟩ := up_ok_inv s s1 h1
  have hs2 : s2 = dropAll s := by
    rw [down_eval] at h2
    simpa using h2.symm
  subst hs1
  subst hs2
  exact ⟨rfl, by decide, fun n hn => lookupTable_append_other s n hn, rfl,
    fun n hn => lookupTable_dropAll_other s n hn⟩

/-- A table outside the migration's set, holding a row. -/
def keeperTable : Table :=
  ⟨"keepers", ⟨[⟨"id", ColType.integer, true, true, true⟩], ["id"], []⟩,
   [[("id", Value.vint 7)]]⟩

theorem except_bind_ok (a : DbState) (f : DbState → Except String DbState) :
    (Except.ok a : Except String DbState).bind f = f a := rfl

theorem insertRow_zoo_animals (zr sr ar zar : List Row) (r : Row) :
    insertRow (mkState zr sr ar zar) "zoo_animals" r =
      (if !notNullOk zooAnimalsSchema r then
        Except.error "not-null violation: zoo_animals"
      else if !uniqueOk zooAnimalsSchema zar r then
        Except.error "unique violation: zoo_animals"
      else if pkViolated zooAnimalsSchema zar r then
        Except.error "primary key violation: zoo_animals"
      else if !fksOk (mkState zr sr ar zar) zooAnimalsSchema r then
        Except.error "foreign key violation: zoo_animals"
      else Except.ok (mkState zr sr ar (zar ++ [r]))) := rfl

theorem insertRow_zoos (zr sr ar zar : List Row) (r : Row) :
    insertRow (mkState zr sr ar zar) "zoos" r =
      (if !notNullOk zoosSchema r then
        Except.error "not-null violation: zoos"
      else if !uniqueOk zoosSchema zr r then
        Except.error "unique violation: zoos"
      else if pkViolated zoosSchema zr r then
        Except.error "primary key violation: zoos"
      else if !fksOk (mkState zr sr ar zar) zoosSchema r then
        Except.error "foreign key violation: zoos"
      else Except.ok (mkState (zr ++ [r]) sr ar zar)) := rfl

theorem insertRow_animals (zr sr ar zar : List Row) (r : Row) :
    insertRow (mkState zr sr ar zar) "animals" r =
      (if !notNullOk animalsSchema r then
        Except.error "not-null violation: animals"
      else if !uniqueOk animalsSchema ar r then
        Except.error "unique violation: animals"
      else if pkViolated animalsSchema ar r then
        Except.error "primary key violation: animals"
      else if !fksOk (mkState zr sr ar zar) animalsSchema r then
        Except.error "foreign key violation: animals"
      else Except.ok (mkState zr sr (ar ++ [r]) zar)) := rfl

theorem deleteRows_zoo_animals (zr sr ar zar : List Row) (pred : Row → Bool) :
    deleteRows (mkState zr sr ar zar) "zoo_animals" pred
      = Except.ok (mkState zr sr ar (zar.filter (fun r => !pred r))) := rfl

theorem fkSatisfied_zoos (zr sr ar zar : List Row) (n : Int) :
    fkSatisfied (mkState zr sr ar zar)
        ⟨"zoo_id", "zoos", "id", FKAction.cascade, FKAction.cascade⟩ (Value.vint n)
      = zr.any (fun pr => getVal pr "id" == Value.vint n) := rfl

theorem fkSatisfied_animals (zr sr ar zar : List Row) (n : Int) :
    fkSatisfied (mkState zr sr ar zar)
        ⟨"animal_id", "animals", "id", FKAction.restrict, FKAction.restrict⟩ (Value.vint n)
      = ar.any (fun pr => getVal pr "id" == Value.vint n) := rfl

/-- C2: the `zoo_animals` table compiles to a composite primary key
over (`zoo_id`, `animal_id`); inserting a row whose pair is already
present fails with a primary-key violation, and after deleting the
pair's row, inserting the same pair succeeds. -/
theorem zoo_animals_composite_primary_key
    (z a : Int) (dup r ex : Row) (zr sr ar zar : List Row)
    (hex : ex ∈ zar)
    (hexz : getVal ex "zoo_id" = Value.vint z)
    (hexa : getVal ex "animal_id" = Value.vint a)
    (hdz : getVal dup "zoo_id" = Value.vint z)
    (hda : getVal dup "animal_id" = Value.vint a)
    (hrz : getVal r "zoo_id" = Value.vint z)
    (hra : getVal r "animal_id" = Value.vint a)
    (hzoo : ∃ p ∈ zr, getVal p "id" = Value.vint z)
    (hanimal : ∃ p ∈ ar, getVal p "id" = Value.vint a) :
    zooAnimalsSchema.primaryKey = ["zoo_id", "animal_id"]
    ∧ insertRow (mkState zr sr ar zar) "zoo_animals" dup
        = Except.error "primary key violation: zoo_animals"
    ∧ (deleteRows (mkState zr sr ar zar) "zoo_animals"
          (fun x => getVal x "zoo_id" == Value.vint z
            && getVal x "animal_id" == Value.vint a)).bind
        (fun db2 => insertRow db2 "zoo_animals" r)
      = Except.ok (mkState zr sr ar
          (zar.filter (fun x => !(getVal x "zoo_id" == Value.vint z
            && getVal x "animal_id" == Value.vint a)) ++ [r])) := by
  refine ⟨rfl, ?_, ?_⟩
  · rw [insertRow_zoo_animals]
    have hc1 : notNullOk zooAnimalsSchema dup = true := by
      simp [notNullOk, zooAnimalsSchema_eq, hdz, hda]
    have hc2 : uniqueOk zooAnimalsSchema zar dup = true := by
      simp [uniqueOk, zooAnimalsSchema_eq]
    have hc3 : pkViolated zooAnimalsSchema zar dup = true := by
      simp only [pkViolated, zooAnimalsSchema_eq, List.isEmpty_cons, Bool.not_false,
        Bool.true_and]
      exact List.any_eq_true.mpr ⟨ex, hex, by simp [hexz, hexa, hdz, hda]⟩
    simp [hc1, hc2, hc3]
  · rw [deleteRows_zoo_animals, except_bind_ok, insertRow_zoo_animals]
    have hc1 : notNullOk zooAnimalsSchema r = true := by
      simp [notNullOk, zooAnimalsSchema_eq, hrz, hra]
    have hc2 : uniqueOk zooAnimalsSchema
        (zar.filter (fun x => !(getVal x "zoo_id" == Value.vint z
          && getVal x "animal_id" == Value.vint a))) r = true := by
      simp [uniqueOk, zooAnimalsSchema_eq]
    have hc3 : pkViolated zooAnimalsSchema
        (zar.filter (fun x => !(getVal x "zoo_id" == Value.vint z
          && getVal x "animal_id" == Value.vint a))) r = false := by
      simp only [pkViolated, zooAnimalsSchema_eq, List.isEmpty_cons, Bool.not_false,
        Bool.true_and]
      rw [List.any_eq_false]
      intro x hx
      obtain ⟨-, hxp⟩ := List.mem_filter.mp hx
      rw [Bool.not_eq_true'] at hxp
      simp only [List.all_cons, List.all_nil, Bool.and_true, hrz, hra]
      rw [hxp]
      simp
    have hc4 : fksOk (mkState zr sr ar
        (zar.filter (fun x => !(getVal x "zoo_id" == Value.vint z
          && getVal x "animal_id" == Value.vint a)))) zooAnimalsSchema r = true := by
      obtain ⟨pz, hpz, hpzv⟩ := hzoo
      obtain ⟨pa, hpa, hpav⟩ := hanimal
      simp only [fksOk, zooAnimalsSchema_eq, List.all_cons, List.all_nil, Bool.and_true]
      rw [hrz, hra, fkSatisfied_zoos, fkSatisfied_animals,
        List.any_eq_true.mpr ⟨pz, hpz, by simp [hpzv]⟩,
        List.any_eq_true.mpr ⟨pa, hpa, by simp [hpav]⟩]
      rfl
    rw [hc1, hc2, hc3, hc4]
    rfl

/-- Closed instance of the composite-key behaviour on the populated
scenario state. -/
theorem zoo_animals_composite_primary_key_witness :
    zooAnimalsSchema.primaryKey = ["zoo_id", "animal_id"]
    ∧ insertRow populatedDb "zoo_animals" [("zoo_id", Value.vint 1), ("animal_id", Value.vint 1)]
        = Except.error "primary key violation: zoo_animals"
    ∧ (deleteRows populatedDb "zoo_animals"
          (fun x => getVal x "zoo_id" == Value.vint 1
            && getVal x "animal_id" == Value.vint 1)).bind
        (fun db2 => insertRow db2 "zoo_animals"
          [("zoo_id", Value.vint 1), ("animal_id", Value.vint 1)])
      = Except.ok (mkState
          [[("id", Value.vint 1), ("zoo_name", Value.vstr "Metro Zoo"),
            ("address", Value.vstr "1 Zoo Way, Springfield")]]
          [[("id", Value.vint 1), ("species_name", Value.vstr "Lion")]]
          [[("id", Value.vint 1), ("animal_name", Value.vstr "Leo"),
            ("species_id", Value.vint 1)]]
          ([[("zoo_id", Value.vint 1), ("animal_id", Value.vint 1)]].filter
            (fun x => !(getVal x "zoo_id" == Value.vint 1
              && getVal x "animal_id" == Value.vint 1)) ++
            [[("zoo_id", Value.vint 1), ("animal_id", Value.vint 1)]])) :=
  zoo_animals_composite_primary_key 1 1
    [("zoo_id", Value.vint 1), ("animal_id", Value.vint 1)]
    [("zoo_id", Value.vint 1), ("animal_id", Value.vint 1)]
    [("zoo_id", Value.vint 1), ("animal_id", Value.vint 1)]
    [[("id", Value.vint 1), ("zoo_name", Value.vstr "Metro Zoo"),
      ("address", Value.vstr "1 Zoo Way, Springfield")]]
    [[("id", Value.vint 1), ("species_name", Value.vstr "Lion")]]
    [[("id", Value.vint 1), ("animal_name", Value.vstr "Leo"),
      ("species_id", Value.vint 1)]]
    [[("zoo_id", Value.vint 1), ("animal_id", Value.vint 1)]]
    (by decide) (by decide) (by decide) (by decide) (by decide) (by decide) (by decide)
    (by decide) (by decide)

/-- C8: in the compiled schemas, `zoos.address` and
`species.species_name` are UNIQUE while `zoos.zoo_name` is not;
inserting a second `zoos` row with an existing address fails with a
uniqueness violation, while inserting a row repeating a `zoo_name` but
with a fresh address (and fresh id) succeeds. -/
theorem zoos_address_unique_zoo_name_not
    (adr adr2 nm : String) (i3 : Int) (r2 r3 ex : Row) (zr sr ar zar : List Row)
    (hex : ex ∈ zr) (hexadr : getVal ex "address" = Value.vstr adr)
    (hr2adr : getVal r2 "address" = Value.vstr adr)
    (hr2id : getVal r2 "id" ≠ Value.vnull)
    (hr2nm : getVal r2 "zoo_name" ≠ Value.vnull)
    (_hname : ∃ p ∈ zr, getVal p "zoo_name" = Value.vstr nm)
    (hr3nm : getVal r3 "zoo_name" = Value.vstr nm)
    (hr3adr : getVal r3 "address" = Value.vstr adr2)
    (hr3id : getVal r3 "id" = Value.vint i3)
    (hfreshadr : ∀ p ∈ zr, getVal p "address" ≠ Value.vstr adr2)
    (hfreshid : ∀ p ∈ zr, getVal p "id" ≠ Value.vint i3) :
    (zoosSchema.columns.map (fun c => (c.name, c.unique)))
        = [("id", true), ("zoo_name", false), ("address", true)]
    ∧ (speciesSchema.columns.map (fun c => (c.name, c.unique)))
        = [("id", true), ("species_name", true)]
    ∧ insertRow (mkState zr sr ar zar) "zoos" r2 = Except.error "unique violation: zoos"
    ∧ insertRow (mkState zr sr ar zar) "zoos" r3
        = Except.ok (mkState (zr ++ [r3]) sr ar zar) := by
  refine ⟨rfl, rfl, ?_, ?_⟩
  · rw [insertRow_zoos]
    have hc1 : notNullOk zoosSchema r2 = true := by
      simp [notNullOk, zoosSchema_eq, hr2adr, hr2id, hr2nm]
    have hc2 : uniqueOk zoosSchema zr r2 = false := by
      have hC : zr.all (fun ex2 => getVal ex2 "address" != getVal r2 "address") = false :=
        List.all_eq_false.mpr ⟨ex, hex, by simp [hexadr, hr2adr]⟩
      simp [uniqueOk, zoosSchema_eq, hC]
    rw [hc1, hc2]
    rfl
  · rw [insertRow_zoos]
    have hc1 : notNullOk zoosSchema r3 = true := by
      simp [notNullOk, zoosSchema_eq, hr3nm, hr3adr, hr3id]
    have hA : zr.all (fun ex2 => getVal ex2 "id" != getVal r3 "id") = true := by
      rw [List.all_eq_true]
      intro p hp
      simp [hr3id, hfreshid p hp]
    have hC : zr.all (fun ex2 => getVal ex2 "address" != getVal r3 "address") = true := by
      rw [List.all_eq_true]
      intro p hp
      simp [hr3adr, hfreshadr p hp]
    have hc2 : uniqueOk zoosSchema zr r3 = true := by
      simp [uniqueOk, zoosSchema_eq, hA, hC]
    have hc3 : pkViolated zoosSchema zr r3 = false := by
      simp only [pkViolated, zoosSchema_eq, List.isEmpty_cons, Bool.not_false, Bool.true_and]
      rw [List.any_eq_false]
      intro p hp
      simp [hr3id, hfreshid p hp]
    have hc4 : fksOk (mkState zr sr ar zar) zoosSchema r3 = true := by
      simp [fksOk, zoosSchema_eq]
    rw [hc1, hc2, hc3, hc4]
    rfl

/-- Closed instance of the uniqueness behaviour of `zoos` columns. -/
theorem zoos_address_unique_zoo_name_not_witness :
    (zoosSchema.columns.map (fun c => (c.name, c.unique)))
        = [("id", true), ("zoo_name", false), ("address", true)]
    ∧ (speciesSchema.columns.map (fun c => (c.name, c.unique)))
        = [("id", true), ("species_name", true)]
    ∧ insertRow (mkState
          [[("id", Value.vint 1), ("zoo_name", Value.vstr "Metro Zoo"),
            ("address", Value.vstr "1 Zoo Way")]] [] [] [])
        "zoos"
        [("id", Value.vint 2), ("zoo_name", Value.vstr "Other Zoo"),
          ("address", Value.vstr "1 Zoo Way")]
        = Except.error "unique violation: zoos"
    ∧ insertRow (mkState
          [[("id", Value.vint 1), ("zoo_name", Value.vstr "Metro Zoo"),
            ("address", Value.vstr "1 Zoo Way")]] [] [] [])
        "zoos"
        [("id", Value.vint 2), ("zoo_name", Value.vstr "Metro Zoo"),
          ("address", Value.vstr "2 Zoo Way")]
        = Except.ok (mkState
            ([[("id", Value.vint 1), ("zoo_name", Value.vstr "Metro Zoo"),
              ("address", Value.vstr "1 Zoo Way")]] ++
              [[("id", Value.vint 2), ("zoo_name", Value.vstr "Metro Zoo"),
                ("address", Value.vstr "2 Zoo Way")]]) [] [] []) :=
  zoos_address_unique_zoo_name_not "1 Zoo Way" "2 Zoo Way" "Metro Zoo" 2
    [("id", Value.vint 2), ("zoo_name", Value.vstr "Other Zoo"),
      ("address", Value.vstr "1 Zoo Way")]
    [("id", Value.vint 2), ("zoo_name", Value.vstr "Metro Zoo"),
      ("address", Value.vstr "2 Zoo Way")]
    [("id", Value.vint 1), ("zoo_name", Value.vstr "Metro Zoo"),
      ("address", Value.vstr "1 Zoo Way")]
    [[("id", Value.vint 1), ("zoo_name", Value.vstr "Metro Zoo"),
      ("address", Value.vstr "1 Zoo Way")]] [] [] []
    (by decide) (by decide) (by decide) (by decide) (by decide) (by decide) (by decide)
    (by decide) (by decide) (by decide) (by decide)

theorem fkSatisfied_species (zr sr ar zar : List Row) (v : Value) (hv : v ≠ Value.vnull) :
    fkSatisfied (mkState zr sr ar zar)
        ⟨"species_id", "species", "id", FKAction.cascade, FKAction.cascade⟩ v
      = sr.any (fun pr => getVal pr "id" == v) := by
  cases v
  · rfl
  · rfl
  · exact absurd rfl hv

/-- C9: `animals.species_id` compiles to an unsigned, non-nullable
foreign key referencing `species.id`, and inserting an `animals` row
whose non-null `species_id` matches no existing `species.id` fails
with a constraint violation, whatever the state's rows. -/
theorem animals_species_id_fk_enforced
    (v : Value) (r : Row) (zr sr ar zar : List Row)
    (hv : getVal r "species_id" = v) (hnn : v ≠ Value.vnull)
    (hno : ∀ p ∈ sr, getVal p "id" ≠ v) :
    (animalsSchema.columns.map (fun c => (c.name, c.unsigned, c.notNull)))
        = [("id", true, true), ("animal_name", false, true), ("species_id", true, true)]
    ∧ animalsSchema.foreignKeys
        = [⟨"species_id", "species", "id", FKAction.cascade, FKAction.cascade⟩]
    ∧ ∃ e, insertRow (mkState zr sr ar zar) "animals" r = Except.error e := by
  refine ⟨rfl, rfl, ?_⟩
  have hfk : fksOk (mkState zr sr ar zar) animalsSchema r = false := by
    simp only [fksOk, animalsSchema_eq, List.all_cons, List.all_nil, Bool.and_true]
    rw [hv, fkSatisfied_species zr sr ar zar v hnn, List.any_eq_false]
    intro p hp
    simp [hno p hp]
  rw [insertRow_animals]
  cases hn1 : notNullOk animalsSchema r with
  | false => exact ⟨"not-null violation: animals", rfl⟩
  | true =>
    cases hn2 : uniqueOk animalsSchema ar r with
    | false => exact ⟨"unique violation: animals", rfl⟩
    | true =>
      cases hn3 : pkViolated animalsSchema ar r with
      | true => exact ⟨"primary key violation: animals", rfl⟩
      | false =>
        refine ⟨"foreign key violation: animals", ?_⟩
        rw [hfk]
        rfl

/-- Closed instance: inserting Leo with a dangling `species_id` 42
fails. -/
theorem animals_species_id_fk_enforced_witness :
    (animalsSchema.columns.map (fun c => (c.name, c.unsigned, c.notNull)))
        = [("id", true, true), ("animal_name", false, true), ("species_id", true, true)]
    ∧ animalsSchema.foreignKeys
        = [⟨"species_id", "species", "id", FKAction.cascade, FKAction.cascade⟩]
    ∧ ∃ e, insertRow (mkState [] [[("id", Value.vint 1), ("species_name", Value.vstr "Lion")]] [] [])
        "animals"
        [("id", Value.vint 1), ("animal_name", Value.vstr "Leo"),
          ("species_id", Value.vint 42)]
        = Except.error e :=
  animals_species_id_fk_enforced (Value.vint 42)
    [("id", Value.vint 1), ("animal_name", Value.vstr "Leo"),
      ("species_id", Value.vint 42)]
    [] [[("id", Value.vint 1), ("species_name", Value.vstr "Lion")]] [] []
    (by decide) (by decide) (by decide)

/-- Closed instance of the frame property over a database holding an
unrelated `keepers` table. -/
theorem migration_frame_witness :
    [keeperTable] ++ mkState [] [] [] [] = [keeperTable] ++ mkState [] [] [] []
    ∧ (∀ t ∈ mkState [] [] [] [], t.rows = [])
    ∧ (∀ n, n ∉ tableNames →
        lookupTable ([keeperTable] ++ mkState [] [] [] []) n = lookupTable [keeperTable] n)
    ∧ dropAll [keeperTable] = dropAll [keeperTable]
    ∧ (∀ n, n ∉ tableNames →
        lookupTable (dropAll [keeperTable]) n = lookupTable [keeperTable] n) :=
  migration_frame [keeperTable] ([keeperTable] ++ mkState [] [] [] [])
    (dropAll [keeperTable]) rfl rfl

end ZooMigration
